import Mathlib

/-!
Shallow embedding of the novaexchange.py client library.

The source (src/novaexchange.py) is a thin client for an exchange HTTP API.
Its core is the dispatcher `api_query`, which classifies a method string as
public (GET, unauthenticated) or private (POST, authenticated with an
HMAC-SHA512 signature of the canonical URL, keyed by the API secret), plus
boilerplate per-endpoint wrappers.

The embedding below models:
- bytes as `Nat` values (meaningful values are < 256), byte strings as `List Nat`;
- the external cryptographic collaborators used by the source
  (`hashlib.sha512`, `hmac.new`, `base64.b64encode`, `str.encode("utf-8")`)
  as executable Lean functions implementing the same algorithms;
- the Python dict used for the form body as an association list with
  Python dict assignment semantics (`dictSet`);
- the dispatcher and the wrappers as pure functions from their inputs, the
  wall-clock second at call time (`now`), and the caller-supplied mapping to
  a description of the HTTP request issued and of the state after the call.
-/

/-! ### 64-bit modular arithmetic (SHA-512 works on 64-bit words) -/

def w64mod : Nat := 18446744073709551616

/-- Reduce a natural number to a 64-bit word value. -/
def w64 (n : Nat) : Nat := n % w64mod

/-- Right rotation of a 64-bit word by `k` bits. -/
def rotr64 (k n : Nat) : Nat := w64 ((n >>> k) ||| (n <<< (64 - k)))

/-- Bitwise complement on 64-bit words. -/
def not64 (n : Nat) : Nat := n ^^^ (w64mod - 1)

def bigSigma0 (x : Nat) : Nat := rotr64 28 x ^^^ rotr64 34 x ^^^ rotr64 39 x

def bigSigma1 (x : Nat) : Nat := rotr64 14 x ^^^ rotr64 18 x ^^^ rotr64 41 x

def smallSigma0 (x : Nat) : Nat := rotr64 1 x ^^^ rotr64 8 x ^^^ (x >>> 7)

def smallSigma1 (x : Nat) : Nat := rotr64 19 x ^^^ rotr64 61 x ^^^ (x >>> 6)

def chFn (x y z : Nat) : Nat := (x &&& y) ^^^ (not64 x &&& z)

def majFn (x y z : Nat) : Nat := (x &&& y) ^^^ (x &&& z) ^^^ (y &&& z)

/-! ### SHA-512 (FIPS 180-4), the algorithm behind `hashlib.sha512` -/

/-- The 80 SHA-512 round constants. -/
def sha512K : List Nat :=
  [4794697086780616226, 8158064640168781261, 13096744586834688815, 16840607885511220156,
   4131703408338449720, 6480981068601479193, 10538285296894168987, 12329834152419229976,
   15566598209576043074, 1334009975649890238, 2608012711638119052, 6128411473006802146,
   8268148722764581231, 9286055187155687089, 11230858885718282805, 13951009754708518548,
   16472876342353939154, 17275323862435702243, 1135362057144423861, 2597628984639134821,
   3308224258029322869, 5365058923640841347, 6679025012923562964, 8573033837759648693,
   10970295158949994411, 12119686244451234320, 12683024718118986047, 13788192230050041572,
   14330467153632333762, 15395433587784984357, 489312712824947311, 1452737877330783856,
   2861767655752347644, 3322285676063803686, 5560940570517711597, 5996557281743188959,
   7280758554555802590, 8532644243296465576, 9350256976987008742, 10552545826968843579,
   11727347734174303076, 12113106623233404929, 14000437183269869457, 14369950271660146224,
   15101387698204529176, 15463397548674623760, 17586052441742319658, 1182934255886127544,
   1847814050463011016, 2177327727835720531, 2830643537854262169, 3796741975233480872,
   4115178125766777443, 5681478168544905931, 6601373596472566643, 7507060721942968483,
   8399075790359081724, 8693463985226723168, 9568029438360202098, 10144078919501101548,
   10430055236837252648, 11840083180663258601, 13761210420658862357, 14299343276471374635,
   14566680578165727644, 15097957966210449927, 16922976911328602910, 17689382322260857208,
   500013540394364858, 748580250866718886, 1242879168328830382, 1977374033974150939,
   2944078676154940804, 3659926193048069267, 4368137639120453308, 4836135668995329356,
   5532061633213252278, 6448918945643986474, 6902733635092675308, 7801388544844847127]

/-- The 8 SHA-512 initial hash values. -/
def sha512H0 : List Nat :=
  [7640891576956012808, 13503953896175478587, 4354685564936845355, 11912009170470909681,
   5840696475078001361, 11170449401992604703, 2270897969802886507, 6620516959819538809]

/-- Big-endian encoding of `n` into exactly `k` bytes (low byte last). -/
def toBytesBE : Nat → Nat → List Nat
  | 0, _ => []
  | k + 1, n => toBytesBE k (n / 256) ++ [n % 256]

/-- Big-endian decoding of a byte list into a natural number. -/
def fromBytesBE (l : List Nat) : Nat := l.foldl (fun a b => a * 256 + b) 0

/-- Split a byte list into 128-byte chunks (length assumed a multiple of 128). -/
def chunks128 (l : List Nat) : List (List Nat) :=
  if h : l = [] then [] else l.take 128 :: chunks128 (l.drop 128)
termination_by l.length
decreasing_by
  simp only [List.length_drop]
  have := List.length_pos.mpr h
  omega

/-- Split a byte list into 8-byte chunks (length assumed a multiple of 8). -/
def chunks8 (l : List Nat) : List (List Nat) :=
  if h : l = [] then [] else l.take 8 :: chunks8 (l.drop 8)
termination_by l.length
decreasing_by
  simp only [List.length_drop]
  have := List.length_pos.mpr h
  omega

/-- SHA-512 message padding: append bit 1 (byte 128), zeros, and the 128-bit
big-endian message bit length, to a multiple of 128 bytes. -/
def sha512Pad (msg : List Nat) : List Nat :=
  let zeros := (128 - ((msg.length + 1 + 16) % 128)) % 128
  msg ++ [128] ++ List.replicate zeros 0 ++ toBytesBE 16 (msg.length * 8)

/-- Extend the 16-word message schedule by `k` further words. -/
def extendSchedule : List Nat → Nat → List Nat
  | ws, 0 => ws
  | ws, k + 1 =>
    extendSchedule
      (ws ++ [w64 (smallSigma1 (ws.getD (ws.length - 2) 0) + ws.getD (ws.length - 7) 0 +
        smallSigma0 (ws.getD (ws.length - 15) 0) + ws.getD (ws.length - 16) 0)]) k

/-- Working state of the SHA-512 compression function (registers a through h). -/
structure Sha512State where
  sa : Nat
  sb : Nat
  sc : Nat
  sd : Nat
  se : Nat
  sf : Nat
  sg : Nat
  sh : Nat

def stateOfList (hs : List Nat) : Sha512State :=
  ⟨hs.getD 0 0, hs.getD 1 0, hs.getD 2 0, hs.getD 3 0,
   hs.getD 4 0, hs.getD 5 0, hs.getD 6 0, hs.getD 7 0⟩

def listOfState (st : Sha512State) : List Nat :=
  [st.sa, st.sb, st.sc, st.sd, st.se, st.sf, st.sg, st.sh]

/-- One SHA-512 compression round; `kw` is the sum of the round constant and
the schedule word, already reduced mod 2 ^ 64. -/
def sha512Round (st : Sha512State) (kw : Nat) : Sha512State :=
  let t1 := w64 (st.sh + bigSigma1 st.se + chFn st.se st.sf st.sg + kw)
  let t2 := w64 (bigSigma0 st.sa + majFn st.sa st.sb st.sc)
  ⟨w64 (t1 + t2), st.sa, st.sb, st.sc, w64 (st.sd + t1), st.se, st.sf, st.sg⟩

/-- Process one 128-byte block, updating the 8-word hash state. -/
def processBlock (hs : List Nat) (block : List Nat) : List Nat :=
  let ws := extendSchedule ((chunks8 block).map fromBytesBE) 64
  let kws := List.zipWith (fun k w => w64 (k + w)) sha512K ws
  let st := kws.foldl sha512Round (stateOfList hs)
  List.zipWith (fun x y => w64 (x + y)) hs (listOfState st)

/-- SHA-512 of a byte list: a 64-byte digest. -/
def sha512 (msg : List Nat) : List Nat :=
  (((chunks128 (sha512Pad msg)).foldl processBlock sha512H0).map (toBytesBE 8)).flatten

/-! ### HMAC-SHA512 (RFC 2104), the algorithm behind `hmac.new(..., digestmod=hashlib.sha512)` -/

/-- HMAC-SHA512 with block size 128: keys longer than one block are hashed,
the key is zero-padded to the block size, and the nested ipad/opad hashes
are taken. -/
def hmacSha512 (key msg : List Nat) : List Nat :=
  let k0 := if 128 < key.length then sha512 key else key
  let kp := k0 ++ List.replicate (128 - k0.length) 0
  let ipadKey := kp.map (fun b => b ^^^ 54)
  let opadKey := kp.map (fun b => b ^^^ 92)
  sha512 (opadKey ++ sha512 (ipadKey ++ msg))

/-! ### Base64 (RFC 4648), the algorithm behind `base64.b64encode` -/

/-- ASCII codes of the standard base64 alphabet A-Z, a-z, 0-9, plus, slash. -/
def b64Alphabet : List Nat :=
  [65, 66, 67, 68, 69, 70, 71, 72, 73, 74, 75, 76, 77, 78, 79, 80, 81, 82, 83, 84,
   85, 86, 87, 88, 89, 90, 97, 98, 99, 100, 101, 102, 103, 104, 105, 106, 107, 108,
   109, 110, 111, 112, 113, 114, 115, 116, 117, 118, 119, 120, 121, 122, 48, 49,
   50, 51, 52, 53, 54, 55, 56, 57, 43, 47]

/-- ASCII code of the base64 alphabet character with 6-bit index `i`. -/
def b64Char (i : Nat) : Nat := b64Alphabet.getD (i % 64) 0

/-- Standard base64 encoding of a byte list, with padding byte 61 (the ASCII
code of the equals sign), returned as the list of ASCII codes. -/
def b64encode : List Nat → List Nat
  | [] => []
  | [b1] => [b64Char (b1 / 4), b64Char (b1 % 4 * 16), 61, 61]
  | [b1, b2] => [b64Char (b1 / 4), b64Char (b1 % 4 * 16 + b2 / 16), b64Char (b2 % 16 * 4), 61]
  | b1 :: b2 :: b3 :: rest =>
    b64Char (b1 / 4) :: b64Char (b1 % 4 * 16 + b2 / 16) ::
      b64Char (b2 % 16 * 4 + b3 / 64) :: b64Char (b3 % 64) :: b64encode rest

/-! ### UTF-8 encoding, the semantics of `str.encode("utf-8")` -/

/-- UTF-8 encoding of a single code point. -/
def utf8Char (c : Char) : List Nat :=
  let n := c.toNat
  if n < 128 then [n]
  else if n < 2048 then [192 + n / 64, 128 + n % 64]
  else if n < 65536 then [224 + n / 4096, 128 + n / 64 % 64, 128 + n % 64]
  else [240 + n / 262144, 128 + n / 4096 % 64, 128 + n / 64 % 64, 128 + n % 64]

/-- UTF-8 encoding of a string as a byte list. -/
def utf8Bytes (s : String) : List Nat := (s.data.map utf8Char).flatten

/-! ### Python values and dict association lists -/

/-- Scalar values that can appear in the outgoing form mapping: Python
strings, integers, and byte strings (the signature is a bytes value). -/
inductive PyVal where
  | str : String → PyVal
  | int : Int → PyVal
  | bytes : List Nat → PyVal
deriving DecidableEq, Repr

/-- The Python dict used for the form body, as an association list. Python
dicts have pairwise distinct keys; theorems that count fields assume the
caller-supplied mapping satisfies this invariant. -/
abbrev Dict : Type := List (String × PyVal)

/-- Python dict assignment `d[k] = v`: replace the value in place if the key
is present (keeping its position), otherwise append the new entry. -/
def dictSet : Dict → String → PyVal → Dict
  | [], k, v => [(k, v)]
  | (k1, v1) :: rest, k, v =>
    if k1 = k then (k, v) :: rest else (k1, v1) :: dictSet rest k v

/-- Python dict lookup `d[k]`: the value of the first entry with key `k`. -/
def dictLookup : Dict → String → Option PyVal
  | [], _ => none
  | (k1, v1) :: rest, k => if k1 = k then some v1 else dictLookup rest k

/-- Number of entries of the mapping carrying the key `k`. -/
def countKey (d : Dict) (k : String) : Nat :=
  (List.filter (fun p => p.1 = k) d).length

/-! ### The request dispatcher `api_query` and its data model -/

/-- The single HTTP request a `dispatch` call hands to the transport:
either `requests.get(url, timeout=60)` or
`requests.post(url, data=req, headers=headers, timeout=60)`. -/
inductive HttpRequest where
  | get : (url : String) → (timeout : Nat) → HttpRequest
  | post : (url : String) → (data : Dict) → (headers : List (String × String)) →
      (timeout : Nat) → HttpRequest
deriving DecidableEq

/-- The client object: the credentials stored by `NovaExchange.__init__`. -/
structure NovaExchange where
  api_key : String
  api_secret : String
deriving DecidableEq, Repr

/-- Embeds `__init__(self, api_key, api_secret)`: a `None` argument is
normalized to the empty string, a string argument is stored as given
(`str` of a string is the string itself). -/
def NovaExchange.init (api_key api_secret : Option String) : NovaExchange :=
  { api_key := api_key.getD "", api_secret := api_secret.getD "" }

/-- The constant base endpoint from the source. -/
def base_url : String := "https://novaexchange.com/remote/v2/"

/-- The fixed private-method set from the source. -/
def private_set : List String :=
  ["getbalances", "getbalance", "getdeposits", "getwithdrawals", "getnewdepositaddress",
   "getdepositaddress", "myopenorders", "myopenorders_market", "cancelorder", "withdraw",
   "trade", "tradehistory", "getdeposithistory", "getwithdrawalhistory", "walletstatus"]

/-- Embeds `method.split("/")[0]`: the text up to the first slash. Python
`split` always yields a nonempty list whose head is exactly this segment. -/
def firstSegment (m : String) : String :=
  String.mk (m.data.takeWhile (fun c => c != '/'))

/-- Embeds the Python slice `s[0:6]`: the first 6 characters (fewer if the
string is shorter). -/
def take6 (s : String) : String := String.mk (s.data.take 6)

/-- Embeds lines 47-48 of the source: the signature transmitted with a
private call is the base64 encoding of the HMAC-SHA512 digest of the
UTF-8 bytes of the canonical URL, keyed by the UTF-8 bytes of the API
secret. -/
def signature (api_secret url : String) : List Nat :=
  b64encode (hmacSha512 (utf8Bytes api_secret) (utf8Bytes url))

/-- Embeds line 45 of the source: the canonical URL of a private call,
`url += "private/" + method + "/" + "?nonce=" + str(int(time.time()))`,
where `now` is the wall-clock Unix second at call time. -/
def privateUrl (method : String) (now : Nat) : String :=
  base_url ++ "private/" ++ method ++ "/" ++ "?nonce=" ++ toString now

/-- The headers literal of the private branch. -/
def postHeaders : List (String × String) :=
  [("content-type", "application/x-www-form-urlencoded")]

/-- Observable outcome of one `api_query` call:
`request` is the HTTP request handed to the transport (`none` when no
classification branch executes, in which case the Python code raises an
unbound-local error at `return r.text` without any network traffic);
`callerReq` is the mapping object the caller passed, after the call
(Python passes the dict by reference, so private-branch mutations are
visible to the caller unless the falsy check rebound the local name);
`client` is the client object after the call. -/
structure ApiQueryOut where
  request : Option HttpRequest
  callerReq : Option Dict
  client : NovaExchange

/-- Embeds `api_query(self, method, req=None)` (lines 26-51 of the source).

The local `req` starts as the caller mapping; `if not req: req = {}`
rebinds it to a fresh empty dict when the caller passed `None` or an
empty dict (so only a non-empty caller dict aliases the local one).
Then: if the first 6 characters of the first path segment equal
`market`, a GET to `base + method + "/"` is issued; otherwise, if the
first segment is in `private_set`, the canonical URL with the nonce is
built, `apikey` and `signature` are assigned into `req`, and a POST of
`req` to that same URL string is issued; otherwise no branch runs. -/
def api_query (self : NovaExchange) (method : String) (callerReq : Option Dict)
    (now : Nat) : ApiQueryOut :=
  let req0 : Dict := callerReq.getD []
  let req : Dict := if req0 = [] then [] else req0
  if take6 (firstSegment method) = "market" then
    { request := some (HttpRequest.get (base_url ++ method ++ "/") 60)
      callerReq := callerReq
      client := self }
  else if firstSegment method ∈ private_set then
    let url := privateUrl method now
    let req1 := dictSet req "apikey" (PyVal.str self.api_key)
    let req2 := dictSet req1 "signature" (PyVal.bytes (signature self.api_secret url))
    { request := some (HttpRequest.post url req2 postHeaders 60)
      callerReq :=
        match callerReq with
        | none => none
        | some d => if d = [] then some d else some req2
      client := self }
  else
    { request := none, callerReq := callerReq, client := self }

/-! ### Endpoint wrappers with pre-flight validation -/

/-- Result of a wrapper method: either a delegated `api_query` invocation
(described by its method string and optional extra mapping), or the tuple
of values the source returns for an invalid enumerated argument. -/
inductive WrapperResult where
  | query : (method : String) → (req : Option Dict) → WrapperResult
  | err : (parts : List PyVal) → WrapperResult
deriving DecidableEq

/-- Embeds `market_open_orders(self, market, ordertype)` (lines 101-121):
the ordertype must be one of BUY, SELL, BOTH, otherwise the source
returns an error tuple instead of dispatching. -/
def market_open_orders (market ordertype : String) : WrapperResult :=
  if ordertype ∈ (["BUY", "SELL", "BOTH"] : List String) then
    WrapperResult.query ("market/openorders/" ++ market ++ "/" ++ ordertype) none
  else
    WrapperResult.err
      [PyVal.str ordertype, PyVal.str "is not a valid ordertype. please use BUY, SELL, or BOTH."]

/-- Embeds `trade(self, market, tradetype, tradeamount, tradeprice, tradebase=0)`
(lines 259-291). The source first coerces the arguments
(`tradetype = str(...)`, `tradebase = int(...)`, amounts to float); here
`tradetype` arrives as the coerced string, `tradebase` as the coerced
integer, and the two float amounts as opaque already-coerced values. The
tradetype check runs first and returns its error tuple; then the
tradebase check; only then is `api_query` invoked. -/
def trade (market tradetype : String) (tradeamount tradeprice : PyVal)
    (tradebase : Int) : WrapperResult :=
  if tradetype = "BUY" ∨ tradetype = "SELL" then
    if tradebase = 0 ∨ tradebase = 1 then
      WrapperResult.query ("trade/" ++ market)
        (some [("tradetype", PyVal.str tradetype), ("tradebase", PyVal.int tradebase),
               ("tradeprice", tradeprice), ("tradeamount", tradeamount)])
    else
      WrapperResult.err
        [PyVal.str "tradebase", PyVal.str (toString tradebase),
         PyVal.str "is invalid (Set as 0 for market currency or 1 for basecurrency as tradeamount)"]
  else
    WrapperResult.err
      [PyVal.str "trade type", PyVal.str tradetype,
       PyVal.str "is invalid. (Set as  BUY or SELL)"]

/-! ### Decimal digit strings (for reasoning about `str(int(time.time()))`) -/

/-- Big-endian decimal digit characters of a natural number (0 is "0");
reference function used to characterize `Nat.toDigits` from core. -/
def digitsBE (n : Nat) : List Char :=
  if h : n < 10 then [Nat.digitChar n]
  else digitsBE (n / 10) ++ [Nat.digitChar (n % 10)]
termination_by n
decreasing_by exact Nat.div_lt_self (by omega) (by decide)

/-- Numeric value of a decimal digit character. -/
def digitVal (c : Char) : Nat := c.toNat - 48

/-- Numeric value of a big-endian decimal digit character list. -/
def valOfDigits (l : List Char) : Nat := l.foldl (fun a c => a * 10 + digitVal c) 0

/-! ### Lemmas about the dict model -/

theorem dictLookup_set_self (d : Dict) (k : String) (v : PyVal) :
    dictLookup (dictSet d k v) k = some v := by
  induction d with
  | nil => simp [dictSet, dictLookup]
  | cons p rest ih =>
    obtain ⟨k1, v1⟩ := p
    by_cases h : k1 = k
    · simp [dictSet, dictLookup, h]
    · simp [dictSet, dictLookup, h, ih]

theorem dictLookup_set_ne (d : Dict) (k k2 : String) (v : PyVal) (h : k2 ≠ k) :
    dictLookup (dictSet d k v) k2 = dictLookup d k2 := by
  induction d with
  | nil => simp [dictSet, dictLookup, Ne.symm h]
  | cons p rest ih =>
    obtain ⟨k1, v1⟩ := p
    by_cases h1 : k1 = k
    · subst h1
      simp [dictSet, dictLookup, h, Ne.symm h]
    · by_cases h2 : k1 = k2 <;> simp [dictSet, dictLookup, h, h1, h2, ih]

theorem countKey_cons (k1 : String) (v1 : PyVal) (rest : Dict) (k : String) :
    countKey ((k1, v1) :: rest) k = (if k1 = k then 1 else 0) + countKey rest k := by
  by_cases h : k1 = k <;> simp [countKey, List.filter_cons, h, Nat.add_comm]

theorem countKey_eq_zero_of_not_mem (d : Dict) (k : String)
    (h : k ∉ d.map Prod.fst) : countKey d k = 0 := by
  induction d with
  | nil => rfl
  | cons p rest ih =>
    obtain ⟨k1, v1⟩ := p
    simp only [List.map_cons, List.mem_cons, not_or] at h
    rw [countKey_cons, if_neg (Ne.symm h.1), ih h.2]

theorem countKey_set_self (d : Dict) (k : String) (v : PyVal)
    (h : (d.map Prod.fst).Nodup) : countKey (dictSet d k v) k = 1 := by
  induction d with
  | nil => simp [dictSet, countKey_cons, countKey]
  | cons p rest ih =>
    obtain ⟨k1, v1⟩ := p
    simp only [List.map_cons, List.nodup_cons] at h
    by_cases h1 : k1 = k
    · subst h1
      simp only [dictSet, if_pos rfl, if_true]
      rw [countKey_cons, if_pos rfl, countKey_eq_zero_of_not_mem rest k1 h.1]
    · simp only [dictSet, if_neg h1]
      rw [countKey_cons, if_neg h1, ih h.2]

theorem countKey_set_ne (d : Dict) (k k2 : String) (v : PyVal) (h : k2 ≠ k) :
    countKey (dictSet d k v) k2 = countKey d k2 := by
  induction d with
  | nil => simp [dictSet, countKey_cons, Ne.symm h, countKey]
  | cons p rest ih =>
    obtain ⟨k1, v1⟩ := p
    by_cases h1 : k1 = k
    · subst h1
      simp only [dictSet, if_pos rfl, if_true]
      rw [countKey_cons, countKey_cons]
    · simp only [dictSet, if_neg h1]
      rw [countKey_cons, countKey_cons, ih]

theorem keys_set (d : Dict) (k : String) (v : PyVal) :
    (dictSet d k v).map Prod.fst =
      if k ∈ d.map Prod.fst then d.map Prod.fst else d.map Prod.fst ++ [k] := by
  induction d with
  | nil => simp [dictSet]
  | cons p rest ih =>
    obtain ⟨k1, v1⟩ := p
    by_cases h1 : k1 = k
    · subst h1
      simp [dictSet]
    · simp only [dictSet, if_neg h1, List.map_cons, List.mem_cons, ih]
      by_cases h2 : k ∈ rest.map Prod.fst <;> simp [h2, Ne.symm h1]

theorem nodup_keys_set (d : Dict) (k : String) (v : PyVal)
    (h : (d.map Prod.fst).Nodup) : ((dictSet d k v).map Prod.fst).Nodup := by
  rw [keys_set]
  by_cases h2 : k ∈ d.map Prod.fst
  · simpa [h2] using h
  · simp only [if_neg h2]
    refine List.Nodup.append h (List.nodup_singleton k) ?_
    intro a ha hb
    simp only [List.mem_singleton] at hb
    subst hb
    exact h2 ha

/-! ### Shape lemmas for the digest and its encoding -/

theorem length_toBytesBE (k n : Nat) : (toBytesBE k n).length = k := by
  induction k generalizing n with
  | zero => rfl
  | succ k ih => simp [toBytesBE, ih]

theorem mem_toBytesBE_lt (k n : Nat) : ∀ x ∈ toBytesBE k n, x < 256 := by
  induction k generalizing n with
  | zero => simp [toBytesBE]
  | succ k ih =>
    intro x hx
    simp only [toBytesBE, List.mem_append, List.mem_singleton] at hx
    rcases hx with hx | hx
    · exact ih _ x hx
    · subst hx
      exact Nat.mod_lt _ (by decide)

theorem length_processBlock (hs block : List Nat) (h : hs.length = 8) :
    (processBlock hs block).length = 8 := by
  simp [processBlock, List.length_zipWith, h, listOfState]

theorem length_foldl_processBlock (blocks : List (List Nat)) (hs : List Nat)
    (h : hs.length = 8) : (blocks.foldl processBlock hs).length = 8 := by
  induction blocks generalizing hs with
  | nil => exact h
  | cons b bs ih => exact ih _ (length_processBlock _ _ h)

theorem length_flatten_toBytesBE (hs : List Nat) :
    ((hs.map (toBytesBE 8)).flatten).length = 8 * hs.length := by
  induction hs with
  | nil => rfl
  | cons a t ih =>
    simp only [List.map_cons, List.flatten_cons, List.length_append, length_toBytesBE, ih,
      List.length_cons]
    omega

theorem sha512_length (msg : List Nat) : (sha512 msg).length = 64 := by
  have h8 := length_foldl_processBlock (chunks128 (sha512Pad msg)) sha512H0 rfl
  rw [sha512, length_flatten_toBytesBE, h8]

theorem sha512_lt (msg : List Nat) : ∀ x ∈ sha512 msg, x < 256 := by
  intro x hx
  simp only [sha512, List.mem_flatten, List.mem_map] at hx
  obtain ⟨l, ⟨w, hw, rfl⟩, hxl⟩ := hx
  exact mem_toBytesBE_lt 8 w x hxl

theorem hmacSha512_length (key msg : List Nat) : (hmacSha512 key msg).length = 64 :=
  sha512_length _

theorem hmacSha512_lt (key msg : List Nat) : ∀ x ∈ hmacSha512 key msg, x < 256 :=
  sha512_lt _

theorem b64Char_lt (i : Nat) : b64Char i < 128 := by
  have h : i % 64 < 64 := Nat.mod_lt _ (by decide)
  have hall : ∀ j, j < 64 → b64Alphabet.getD j 0 < 128 := by decide
  exact hall _ h

theorem b64encode_length (l : List Nat) : (b64encode l).length = 4 * ((l.length + 2) / 3) := by
  induction l using b64encode.induct with
  | case1 => simp [b64encode]
  | case2 b1 => simp [b64encode]
  | case3 b1 b2 => simp [b64encode]
  | case4 b1 b2 b3 rest ih =>
    simp only [b64encode, List.length_cons, ih]
    omega

theorem b64encode_lt (l : List Nat) : ∀ x ∈ b64encode l, x < 128 := by
  induction l using b64encode.induct with
  | case1 => simp [b64encode]
  | case2 b1 =>
    intro x hx
    simp only [b64encode, List.mem_cons, List.not_mem_nil, or_false] at hx
    rcases hx with rfl | rfl | rfl | rfl
    · exact b64Char_lt _
    · exact b64Char_lt _
    · decide
    · decide
  | case3 b1 b2 =>
    intro x hx
    simp only [b64encode, List.mem_cons, List.not_mem_nil, or_false] at hx
    rcases hx with rfl | rfl | rfl | rfl
    · exact b64Char_lt _
    · exact b64Char_lt _
    · exact b64Char_lt _
    · decide
  | case4 b1 b2 b3 rest ih =>
    intro x hx
    simp only [b64encode, List.mem_cons] at hx
    rcases hx with rfl | rfl | rfl | rfl | hx
    · exact b64Char_lt _
    · exact b64Char_lt _
    · exact b64Char_lt _
    · exact b64Char_lt _
    · exact ih x hx

/-! ### Injectivity of the decimal rendering of the nonce -/

theorem digitVal_digitChar : ∀ m, m < 10 → digitVal (Nat.digitChar m) = m := by decide

theorem toDigitsCore_eq (f : Nat) : ∀ (n : Nat) (ds : List Char), 0 < f → n < 10 ^ f →
    Nat.toDigitsCore 10 f n ds = digitsBE n ++ ds := by
  induction f with
  | zero => omega
  | succ f ih =>
    intro n ds _ h1
    simp only [Nat.toDigitsCore]
    by_cases h10 : n < 10
    · have hdiv : n / 10 = 0 := Nat.div_eq_of_lt h10
      rw [if_pos hdiv, digitsBE, dif_pos h10, Nat.mod_eq_of_lt h10]
      rfl
    · have hdiv : n / 10 ≠ 0 := by omega
      rw [if_neg hdiv]
      have hf : 0 < f := by
        rcases Nat.eq_zero_or_pos f with h0 | h0
        · subst h0
          have h1b : n < 10 := by simpa using h1
          omega
        · exact h0
      have hlt : n / 10 < 10 ^ f := by
        rw [Nat.div_lt_iff_lt_mul (by decide)]
        calc n < 10 ^ (f + 1) := h1
        _ = 10 ^ f * 10 := by rw [Nat.pow_succ]
      rw [ih _ _ hf hlt]
      conv_rhs => rw [digitsBE]
      rw [dif_neg h10]
      simp [List.append_assoc]

theorem toDigits_eq_digitsBE (n : Nat) : Nat.toDigits 10 n = digitsBE n := by
  have h : n < 10 ^ (n + 1) :=
    lt_of_lt_of_le (Nat.lt_pow_self (by decide) n)
      (Nat.pow_le_pow_right (by decide) (Nat.le_succ n))
  rw [Nat.toDigits, toDigitsCore_eq (n + 1) n [] (Nat.succ_pos n) h, List.append_nil]

theorem valOfDigits_digitsBE (n : Nat) : valOfDigits (digitsBE n) = n := by
  induction n using Nat.strong_induction_on with
  | _ n ih =>
    by_cases h : n < 10
    · rw [digitsBE, dif_pos h]
      simp only [valOfDigits, List.foldl, Nat.zero_mul, Nat.zero_add]
      exact digitVal_digitChar n h
    · rw [digitsBE, dif_neg h]
      simp only [valOfDigits, List.foldl_append, List.foldl]
      have ihd := ih (n / 10) (Nat.div_lt_self (by omega) (by decide))
      simp only [valOfDigits] at ihd
      rw [ihd, digitVal_digitChar (n % 10) (Nat.mod_lt _ (by decide))]
      omega

theorem digitsBE_injective (a b : Nat) (h : digitsBE a = digitsBE b) : a = b := by
  have ha := valOfDigits_digitsBE a
  rw [h, valOfDigits_digitsBE] at ha
  exact ha.symm

theorem natRepr_injective (a b : Nat) (h : Nat.repr a = Nat.repr b) : a = b := by
  rw [Nat.repr, Nat.repr] at h
  have h2 : Nat.toDigits 10 a = Nat.toDigits 10 b := by
    have h3 := congrArg String.data h
    simpa [List.asString] using h3
  rw [toDigits_eq_digitsBE, toDigits_eq_digitsBE] at h2
  exact digitsBE_injective a b h2

theorem toString_nat_injective (a b : Nat) (h : (toString a : String) = toString b) : a = b :=
  natRepr_injective a b h

/-! ### Bridge lemmas for the dispatcher -/

theorem private_not_market : ∀ s ∈ private_set, take6 s ≠ "market" := by decide

theorem ifEmpty_eq (d : Dict) : (if d = [] then ([] : Dict) else d) = d := by
  by_cases h : d = [] <;> simp [h]

/-! ### Claim theorems -/

/-- C1: for every private call, the request issued is a POST whose target is
the canonical URL base ++ private/ ++ method ++ / ++ ?nonce= ++ nonce, the
transmitted signature field equals base64(HMAC-SHA512(secret bytes,
canonical URL bytes)), and the URL string signed and the URL string posted
are one and the same term, hence byte-identical. -/
theorem C1_canonical_url_signature (self : NovaExchange) (method : String)
    (callerReq : Option Dict) (now : Nat) (h : firstSegment method ∈ private_set) :
    ∃ d : Dict,
      (api_query self method callerReq now).request =
        some (HttpRequest.post (privateUrl method now) d postHeaders 60) ∧
      dictLookup d "signature" =
        some (PyVal.bytes (b64encode (hmacSha512 (utf8Bytes self.api_secret)
          (utf8Bytes (privateUrl method now))))) := by
  have hm : take6 (firstSegment method) ≠ "market" := private_not_market _ h
  refine ⟨dictSet (dictSet (if callerReq.getD [] = [] then [] else callerReq.getD [])
      "apikey" (PyVal.str self.api_key)) "signature"
      (PyVal.bytes (signature self.api_secret (privateUrl method now))), ?_, ?_⟩
  · simp [api_query, hm, h]
  · rw [dictLookup_set_self]
    rfl

/-- Witness for C1 at a concrete private call. -/
theorem C1_canonical_url_signature_witness :
    ∃ d : Dict,
      (api_query ⟨"key", "secret"⟩ "getbalances" none 1700000000).request =
        some (HttpRequest.post (privateUrl "getbalances" 1700000000) d postHeaders 60) ∧
      dictLookup d "signature" =
        some (PyVal.bytes (b64encode (hmacSha512 (utf8Bytes "secret")
          (utf8Bytes (privateUrl "getbalances" 1700000000))))) :=
  C1_canonical_url_signature ⟨"key", "secret"⟩ "getbalances" none 1700000000 (by decide)

/-- C2: dispatch classifies a method as public/market exactly when the first
6 characters of its first path segment equal the literal market (issuing a
GET), and otherwise as private exactly when the first segment belongs to the
fixed private-method set (issuing a POST); the market test is checked first,
which the negated market condition in the private characterization records. -/
theorem C2_classification (self : NovaExchange) (method : String) (callerReq : Option Dict)
    (now : Nat) :
    ((∃ u t, (api_query self method callerReq now).request = some (HttpRequest.get u t)) ↔
      take6 (firstSegment method) = "market") ∧
    ((∃ u d hs t, (api_query self method callerReq now).request =
        some (HttpRequest.post u d hs t)) ↔
      (take6 (firstSegment method) ≠ "market" ∧ firstSegment method ∈ private_set)) := by
  by_cases hm : take6 (firstSegment method) = "market"
  · simp [api_query, hm]
  · by_cases hp : firstSegment method ∈ private_set <;> simp [api_query, hm, hp]

/-- C3: for every private call, the posted form body holds exactly one apikey
entry, whose value is the client key, and exactly one signature entry
(caller-supplied entries under these keys are overwritten), and the target
URL carries the nonce query parameter, the decimal string of the Unix-time
second at call time. The mapping invariant that Python dicts have pairwise
distinct keys is taken as a hypothesis on the caller mapping. -/
theorem C3_private_post_fields (self : NovaExchange) (method : String)
    (callerReq : Option Dict) (now : Nat) (h : firstSegment method ∈ private_set)
    (hnodup : (((callerReq.getD []) : Dict).map Prod.fst).Nodup) :
    ∃ d : Dict,
      (api_query self method callerReq now).request =
        some (HttpRequest.post (privateUrl method now) d postHeaders 60) ∧
      countKey d "apikey" = 1 ∧
      dictLookup d "apikey" = some (PyVal.str self.api_key) ∧
      countKey d "signature" = 1 ∧
      privateUrl method now =
        base_url ++ "private/" ++ method ++ "/" ++ "?nonce=" ++ toString now := by
  have hm : take6 (firstSegment method) ≠ "market" := private_not_market _ h
  have hreqnodup : (((if callerReq.getD [] = [] then [] else callerReq.getD []) : Dict).map
      Prod.fst).Nodup := by
    rw [ifEmpty_eq]
    exact hnodup
  refine ⟨dictSet (dictSet (if callerReq.getD [] = [] then [] else callerReq.getD [])
      "apikey" (PyVal.str self.api_key)) "signature"
      (PyVal.bytes (signature self.api_secret (privateUrl method now))), ?_, ?_, ?_, ?_, rfl⟩
  · simp [api_query, hm, h]
  · rw [countKey_set_ne _ _ _ _ (by decide), countKey_set_self _ _ _ hreqnodup]
  · rw [dictLookup_set_ne _ _ _ _ (by decide), dictLookup_set_self]
  · rw [countKey_set_self _ _ _ (nodup_keys_set _ _ _ hreqnodup)]

/-- Witness for C3 at a concrete private call with a caller mapping. -/
theorem C3_private_post_fields_witness :
    ∃ d : Dict,
      (api_query ⟨"key", "secret"⟩ "withdraw/BTC" (some [("amount", PyVal.str "1")])
          1700000000).request =
        some (HttpRequest.post (privateUrl "withdraw/BTC" 1700000000) d postHeaders 60) ∧
      countKey d "apikey" = 1 ∧
      dictLookup d "apikey" = some (PyVal.str "key") ∧
      countKey d "signature" = 1 ∧
      privateUrl "withdraw/BTC" 1700000000 =
        base_url ++ "private/" ++ "withdraw/BTC" ++ "/" ++ "?nonce=" ++
          toString (1700000000 : Nat) :=
  C3_private_post_fields ⟨"key", "secret"⟩ "withdraw/BTC"
    (some [("amount", PyVal.str "1")]) 1700000000 (by decide) (by decide)

/-- C4: for every market-prefixed method, dispatch issues a GET to
base ++ method ++ / (trailing slash appended) with timeout 60; the GET
request carries no body at all, hence neither apikey nor signature, and the
caller mapping is left untouched. -/
theorem C4_public_get (self : NovaExchange) (method : String) (callerReq : Option Dict)
    (now : Nat) (h : take6 (firstSegment method) = "market") :
    (api_query self method callerReq now).request =
      some (HttpRequest.get (base_url ++ method ++ "/") 60) ∧
    (api_query self method callerReq now).callerReq = callerReq := by
  constructor <;> simp [api_query, h]

/-- Witness for C4 at a concrete public call. -/
theorem C4_public_get_witness :
    (api_query ⟨"key", "secret"⟩ "markets" none 1700000000).request =
      some (HttpRequest.get (base_url ++ "markets" ++ "/") 60) ∧
    (api_query ⟨"key", "secret"⟩ "markets" none 1700000000).callerReq = none :=
  C4_public_get ⟨"key", "secret"⟩ "markets" none 1700000000 (by decide)

/-- C5: for every method that is neither market-prefixed nor in the private
set, no branch of the dispatcher executes: no HTTP request is issued and no
response value is produced (the Python code then raises an unbound-local
error at the final return statement). -/
theorem C5_unclassified_no_request (self : NovaExchange) (method : String)
    (callerReq : Option Dict) (now : Nat) (h1 : take6 (firstSegment method) ≠ "market")
    (h2 : firstSegment method ∉ private_set) :
    (api_query self method callerReq now).request = none ∧
    (api_query self method callerReq now).callerReq = callerReq := by
  constructor <;> simp [api_query, h1, h2]

/-- Witness for C5 at a concrete unclassifiable method. -/
theorem C5_unclassified_no_request_witness :
    (api_query ⟨"key", "secret"⟩ "bogusmethod" none 1700000000).request = none ∧
    (api_query ⟨"key", "secret"⟩ "bogusmethod" none 1700000000).callerReq = none :=
  C5_unclassified_no_request ⟨"key", "secret"⟩ "bogusmethod" none 1700000000
    (by decide) (by decide)

/-- C6: the signature computed for a private call is the base64 encoding of
the HMAC-SHA512 digest of the canonical URL keyed by the API secret, and the
computation is deterministic: any two invocations on equal secret and equal
URL yield byte-for-byte equal signatures. -/
theorem C6_signature_deterministic (secret url : String) :
    signature secret url = b64encode (hmacSha512 (utf8Bytes secret) (utf8Bytes url)) ∧
    ∀ secret2 url2, secret2 = secret → url2 = url →
      signature secret2 url2 = signature secret url := by
  refine ⟨rfl, ?_⟩
  intro s2 u2 hs hu
  rw [hs, hu]

/-- Witness for C6 at concrete inputs. -/
theorem C6_signature_deterministic_witness :
    signature "secret" "u" = b64encode (hmacSha512 (utf8Bytes "secret") (utf8Bytes "u")) ∧
    signature "secret" "u" = signature "secret" "u" :=
  ⟨(C6_signature_deterministic "secret" "u").1,
   (C6_signature_deterministic "secret" "u").2 "secret" "u" rfl rfl⟩

/-- C8: the order-side wrapper rejects every ordertype outside BUY, SELL,
BOTH with the descriptive error tuple and without producing a dispatch; the
trade wrapper rejects every tradetype outside BUY, SELL with its error
tuple, and every tradebase outside 0, 1 with an error tuple, in each case
without producing a dispatch. -/
theorem C8_wrapper_validation :
    (∀ market ordertype : String, ordertype ∉ (["BUY", "SELL", "BOTH"] : List String) →
      market_open_orders market ordertype =
        WrapperResult.err [PyVal.str ordertype,
          PyVal.str "is not a valid ordertype. please use BUY, SELL, or BOTH."]) ∧
    (∀ (market tradetype : String) (ta tp : PyVal) (tb : Int),
      tradetype ≠ "BUY" → tradetype ≠ "SELL" →
      trade market tradetype ta tp tb =
        WrapperResult.err [PyVal.str "trade type", PyVal.str tradetype,
          PyVal.str "is invalid. (Set as  BUY or SELL)"]) ∧
    (∀ (market tradetype : String) (ta tp : PyVal) (tb : Int), tb ≠ 0 → tb ≠ 1 →
      ∃ parts, trade market tradetype ta tp tb = WrapperResult.err parts) := by
  refine ⟨?_, ?_, ?_⟩
  · intro market otype hno
    simp [market_open_orders, hno]
  · intro market ttype ta tp tb h1 h2
    simp [trade, h1, h2]
  · intro market ttype ta tp tb h0 h1
    by_cases ht : ttype = "BUY" ∨ ttype = "SELL"
    · refine ⟨[PyVal.str "tradebase", PyVal.str (toString tb),
        PyVal.str "is invalid (Set as 0 for market currency or 1 for basecurrency as tradeamount)"],
        ?_⟩
      have hb : ¬(tb = 0 ∨ tb = 1) := by tauto
      simp [trade, ht, hb]
    · refine ⟨[PyVal.str "trade type", PyVal.str ttype,
        PyVal.str "is invalid. (Set as  BUY or SELL)"], ?_⟩
      simp [trade, ht]

/-- Witness for C8 at concrete invalid arguments. -/
theorem C8_wrapper_validation_witness :
    market_open_orders "LTC_MEOW" "HOLD" =
      WrapperResult.err [PyVal.str "HOLD",
        PyVal.str "is not a valid ordertype. please use BUY, SELL, or BOTH."] ∧
    trade "LTC_MEOW" "HOLD" (PyVal.str "8000.0") (PyVal.str "0.00000008") 0 =
      WrapperResult.err [PyVal.str "trade type", PyVal.str "HOLD",
        PyVal.str "is invalid. (Set as  BUY or SELL)"] ∧
    ∃ parts, trade "LTC_MEOW" "BUY" (PyVal.str "8000.0") (PyVal.str "0.00000008") 2 =
      WrapperResult.err parts :=
  ⟨C8_wrapper_validation.1 "LTC_MEOW" "HOLD" (by decide),
   C8_wrapper_validation.2.1 "LTC_MEOW" "HOLD" (PyVal.str "8000.0") (PyVal.str "0.00000008") 0
     (by decide) (by decide),
   C8_wrapper_validation.2.2 "LTC_MEOW" "BUY" (PyVal.str "8000.0") (PyVal.str "0.00000008") 2
     (by decide) (by decide)⟩

/-- C9: at construction an absent (None) key or secret is stored as the empty
string, never as a null, supplied strings are stored unchanged, and no
dispatcher call modifies the stored credentials of the client instance. -/
theorem C9_credentials_normalized_and_immutable (self : NovaExchange) (method : String)
    (callerReq : Option Dict) (now : Nat) :
    (NovaExchange.init none none).api_key = "" ∧
    (NovaExchange.init none none).api_secret = "" ∧
    (∀ k s : String, NovaExchange.init (some k) (some s) = ⟨k, s⟩) ∧
    (api_query self method callerReq now).client = self := by
  refine ⟨rfl, rfl, fun k s => rfl, ?_⟩
  by_cases hm : take6 (firstSegment method) = "market"
  · simp [api_query, hm]
  · by_cases hp : firstSegment method ∈ private_set <;> simp [api_query, hm, hp]

/-- C10: for every private call with a non-empty caller-supplied mapping the
caller sees, after the call, exactly the mapping that was posted: it has
gained (or had overwritten) the apikey and signature entries, while every
entry under any other key is unchanged. -/
theorem C10_private_mutates_caller_mapping (self : NovaExchange) (method : String)
    (d : Dict) (now : Nat) (h : firstSegment method ∈ private_set) (hne : d ≠ []) :
    ∃ d2 : Dict,
      (api_query self method (some d) now).callerReq = some d2 ∧
      (api_query self method (some d) now).request =
        some (HttpRequest.post (privateUrl method now) d2 postHeaders 60) ∧
      dictLookup d2 "apikey" = some (PyVal.str self.api_key) ∧
      dictLookup d2 "signature" =
        some (PyVal.bytes (signature self.api_secret (privateUrl method now))) ∧
      ∀ k, k ≠ "apikey" → k ≠ "signature" → dictLookup d2 k = dictLookup d k := by
  have hm : take6 (firstSegment method) ≠ "market" := private_not_market _ h
  refine ⟨dictSet (dictSet d "apikey" (PyVal.str self.api_key)) "signature"
      (PyVal.bytes (signature self.api_secret (privateUrl method now))), ?_, ?_, ?_, ?_, ?_⟩
  · simp [api_query, hm, h, hne]
  · simp [api_query, hm, h, hne]
  · rw [dictLookup_set_ne _ _ _ _ (by decide), dictLookup_set_self]
  · rw [dictLookup_set_self]
  · intro k hk1 hk2
    rw [dictLookup_set_ne _ _ _ _ hk2, dictLookup_set_ne _ _ _ _ hk1]

/-- Witness for C10 at a concrete private call with a non-empty mapping. -/
theorem C10_private_mutates_caller_mapping_witness :
    ∃ d2 : Dict,
      (api_query ⟨"key", "secret"⟩ "trade/LTC_MEOW" (some [("tradetype", PyVal.str "BUY")])
          1700000000).callerReq = some d2 ∧
      (api_query ⟨"key", "secret"⟩ "trade/LTC_MEOW" (some [("tradetype", PyVal.str "BUY")])
          1700000000).request =
        some (HttpRequest.post (privateUrl "trade/LTC_MEOW" 1700000000) d2 postHeaders 60) ∧
      dictLookup d2 "apikey" = some (PyVal.str "key") ∧
      dictLookup d2 "signature" =
        some (PyVal.bytes (signature "secret" (privateUrl "trade/LTC_MEOW" 1700000000))) ∧
      ∀ k, k ≠ "apikey" → k ≠ "signature" →
        dictLookup d2 k = dictLookup [("tradetype", PyVal.str "BUY")] k :=
  C10_private_mutates_caller_mapping ⟨"key", "secret"⟩ "trade/LTC_MEOW"
    [("tradetype", PyVal.str "BUY")] 1700000000 (by decide) (by decide)
